import Mathlib

/-!
A shallow embedding of `src/extension/src/azure/azureServices.ts`
(class `AzureServices` of the WebTemplateStudio VS Code extension),
together with theorems settling the frozen claims about it.

External collaborators (auth provider, per-resource providers, the
`MICROSOFT_LEARN_TENANTS` configuration list and the `constants` module)
are not part of the excerpted source; they enter the embedding as
explicit parameters, so every theorem is parametric in their behaviour.
JavaScript `undefined` is modelled by `Option`, thrown exceptions by
`Except`, and the mutable static fields of the class by an explicit
`AzureState` record threaded through the handlers.
-/

namespace AzureServices

/-- The `session` part of a `SubscriptionItem` (from `azureAuth`):
only the tenant id is consulted by this file. -/
structure Session where
  tenantId : String
deriving DecidableEq, Repr

/-- A subscription item as used by `azureServices.ts`.  `objId` models
JavaScript object identity (two list elements are the same object iff
they are the same value of this type), `label` the display label used
as the cache key. -/
structure SubscriptionItem where
  objId : Nat
  label : String
  session : Session
deriving DecidableEq, Repr

/-- The error taxonomy of `src/extension/src/errors.ts` restricted to what
`azureServices.ts` throws, plus `GenericError` for a bare `new Error(...)`
and `ProviderError` for opaque rejections of an external provider call. -/
inductive AzureError where
  | SubscriptionError (msg : String)
  | AuthorizationError (msg : String)
  | ValidationError (msg : String)
  | GenericError (msg : String)
  | ProviderError (msg : String)
deriving DecidableEq, Repr

/-- `CONSTANTS.ERRORS.SUBSCRIPTION_NOT_FOUND` (the `constants` module is not
part of the excerpt; the exact message text is immaterial to the claims). -/
def SUBSCRIPTION_NOT_FOUND : String := "SUBSCRIPTION_NOT_FOUND"

/-- `CONSTANTS.ERRORS.APP_SERVICE_UNDEFINED_ID`. -/
def APP_SERVICE_UNDEFINED_ID : String := "APP_SERVICE_UNDEFINED_ID"

/-- `CONSTANTS.AZURE_LOCATION.CENTRAL_US`, the fixed default location. -/
def CENTRAL_US : String := "Central US"

/-- The mutable static fields of class `AzureServices`:
`subscriptionItemList` and the three per-resource-kind subscription caches.
`none` models a still-`undefined` cache field. -/
structure AzureState where
  subscriptionItemList : List SubscriptionItem
  usersFunctionSubscriptionItemCache : Option SubscriptionItem
  usersCosmosDBSubscriptionItemCache : Option SubscriptionItem
  usersAppServiceSubscriptionItemCache : Option SubscriptionItem
deriving DecidableEq, Repr

/-- The shared body of `updateAppServiceSubscriptionItemCache`,
`updateCosmosDBSubscriptionItemCache` and
`updateFunctionSubscriptionItemCache` (the three functions in the source are
textually identical up to the cache field).  The source tests
`cache === undefined || subscriptionLabel !== cache.label`; when the test
holds it looks the label up in `subscriptionItemList` and either stores the
found item or throws `SubscriptionError(SUBSCRIPTION_NOT_FOUND)`.  On
success the (possibly unchanged) cache value is returned; the source's
cache field is guaranteed defined afterwards, hence the result type
`SubscriptionItem` rather than `Option SubscriptionItem`. -/
def updateSubscriptionItemCache (list : List SubscriptionItem)
    (cache : Option SubscriptionItem) (subscriptionLabel : String) :
    Except AzureError SubscriptionItem :=
  match cache with
  | some c =>
    if subscriptionLabel ≠ c.label then
      match list.find? (fun s => s.label = subscriptionLabel) with
      | some subscriptionItem => .ok subscriptionItem
      | none => .error (.SubscriptionError SUBSCRIPTION_NOT_FOUND)
    else .ok c
  | none =>
    match list.find? (fun s => s.label = subscriptionLabel) with
    | some subscriptionItem => .ok subscriptionItem
    | none => .error (.SubscriptionError SUBSCRIPTION_NOT_FOUND)

/-- `updateAppServiceSubscriptionItemCache` acting on the explicit state. -/
def updateAppServiceSubscriptionItemCache (st : AzureState)
    (subscriptionLabel : String) : Except AzureError AzureState :=
  (updateSubscriptionItemCache st.subscriptionItemList
      st.usersAppServiceSubscriptionItemCache subscriptionLabel).map
    fun s => { st with usersAppServiceSubscriptionItemCache := some s }

/-- `updateCosmosDBSubscriptionItemCache` acting on the explicit state. -/
def updateCosmosDBSubscriptionItemCache (st : AzureState)
    (subscriptionLabel : String) : Except AzureError AzureState :=
  (updateSubscriptionItemCache st.subscriptionItemList
      st.usersCosmosDBSubscriptionItemCache subscriptionLabel).map
    fun s => { st with usersCosmosDBSubscriptionItemCache := some s }

/-- `updateFunctionSubscriptionItemCache` acting on the explicit state. -/
def updateFunctionSubscriptionItemCache (st : AzureState)
    (subscriptionLabel : String) : Except AzureError AzureState :=
  (updateSubscriptionItemCache st.subscriptionItemList
      st.usersFunctionSubscriptionItemCache subscriptionLabel).map
    fun s => { st with usersFunctionSubscriptionItemCache := some s }

/-- `IsMicrosoftLearnSubscription`: membership of the subscription's tenant
id in the configured `MICROSOFT_LEARN_TENANTS` list (the configuration file
is not part of the excerpt, so the tenant list is a parameter). -/
def IsMicrosoftLearnSubscription (MICROSOFT_LEARN_TENANTS : List String)
    (subscriptionItem : SubscriptionItem) : Bool :=
  MICROSOFT_LEARN_TENANTS.contains subscriptionItem.session.tenantId

/-- The payload of a name-validation response.  `scope : Option String`
models presence of the `scope` key in the JavaScript object literal
(`none` = the handler's payload has no `scope` property). -/
structure NameValidationPayload where
  scope : Option String
  isAvailable : Bool
  reason : Option String
deriving DecidableEq, Repr

/-- JavaScript truthiness-negation `!invalidReason` for a
`string | undefined` value: true exactly for `undefined` and `""`. -/
def jsNot : Option String → Bool
  | none => true
  | some s => s = ""

/-- The `isAvailable` expression shared by the three name-validation
handlers: `!invalidReason || invalidReason === undefined ||
invalidReason === ""`. -/
def nameIsAvailable (invalidReason : Option String) : Bool :=
  jsNot invalidReason || invalidReason = none || invalidReason = some ""

/-- `sendAppServiceNameValidationStatusToClient`: update the AppService
cache from `message.subscription`, call `checkWebAppName(message.appName,
cache)` (a provider call, passed as a parameter; `.catch` rethrows the
error unchanged), and wrap the resolved invalid-reason into a payload
carrying `scope`, `isAvailable` and `reason`. -/
def sendAppServiceNameValidationStatusToClient
    (checkWebAppName : String → Option SubscriptionItem → Except AzureError (Option String))
    (st : AzureState) (subscription appName scope : String) :
    Except AzureError (AzureState × NameValidationPayload) := do
  let st ← updateAppServiceSubscriptionItemCache st subscription
  let invalidReason ← checkWebAppName appName st.usersAppServiceSubscriptionItemCache
  pure (st, { scope := some scope,
              isAvailable := nameIsAvailable invalidReason,
              reason := invalidReason })

/-- `sendCosmosNameValidationStatusToClient`: same shape with the Cosmos
cache and `validateCosmosDBAccountName`. -/
def sendCosmosNameValidationStatusToClient
    (validateCosmosDBAccountName : String → Option SubscriptionItem → Except AzureError (Option String))
    (st : AzureState) (subscription appName scope : String) :
    Except AzureError (AzureState × NameValidationPayload) := do
  let st ← updateCosmosDBSubscriptionItemCache st subscription
  let invalidReason ← validateCosmosDBAccountName appName st.usersCosmosDBSubscriptionItemCache
  pure (st, { scope := some scope,
              isAvailable := nameIsAvailable invalidReason,
              reason := invalidReason })

/-- `sendFunctionNameValidationStatusToClient`: same shape with the
Functions cache and `checkFunctionAppName` — except that the object
literal this handler returns has no `scope` property at all (unlike the
other two handlers), hence `scope := none` regardless of the message. -/
def sendFunctionNameValidationStatusToClient
    (checkFunctionAppName : String → Option SubscriptionItem → Except AzureError (Option String))
    (st : AzureState) (subscription appName : String) :
    Except AzureError (AzureState × NameValidationPayload) := do
  let st ← updateFunctionSubscriptionItemCache st subscription
  let invalidReason ← checkFunctionAppName appName st.usersFunctionSubscriptionItemCache
  pure (st, { scope := none,
              isAvailable := nameIsAvailable invalidReason,
              reason := invalidReason })

/-! ### Connection-string parsing (`convertToSettings`) -/

/-- JavaScript `s.split("\n")` on the character list of `s`: splits at
every `'\n'`, keeping empty segments (so `""` splits to `[""]` and a
trailing `'\n'` produces a final empty segment). -/
def splitNl : List Char → List (List Char)
  | [] => [[]]
  | c :: cs =>
    if c = '\n' then [] :: splitNl cs
    else
      match splitNl cs with
      | f :: rest => (c :: f) :: rest
      | [] => [[c]]

/-- One iteration of the `convertToSettings` loop body on a field:
`key = field.substr(0, field.indexOf("="))`,
`value = field.substr(field.indexOf("=") + 1)`.  When the field contains
no `'='`, JavaScript `indexOf` returns `-1`, so `substr(0, -1)` yields
`""` and `substr(0)` yields the whole field. -/
def lineEntry (field : List Char) : String × String :=
  match field.findIdx? (fun c => c = '=') with
  | some i => ((field.take i).asString, (field.drop (i + 1)).asString)
  | none => ("", field.asString)

/-- JavaScript object-property assignment `result[key] = value` on an
insertion-ordered association list: overwrite in place if the key exists,
otherwise append. -/
def objInsert (result : List (String × String)) (key value : String) :
    List (String × String) :=
  if result.any (fun p => p.1 = key) then
    result.map (fun p => if p.1 = key then (key, value) else p)
  else result ++ [(key, value)]

/-- `convertToSettings` on a character list: split the parsed connection
string on `"\n"`, then loop `for i in [0, fields.length - 1)` — i.e. over
every field except the last — assigning `result[key] = value` with the
field split at its first `'='`. -/
def convertToSettingsL (parsedConnectionString : List Char) :
    List (String × String) :=
  let fields := splitNl parsedConnectionString
  (fields.take (fields.length - 1)).foldl
    (fun result f => objInsert result (lineEntry f).1 (lineEntry f).2) []

/-- `convertToSettings` on a string. -/
def convertToSettings (parsedConnectionString : String) :
    List (String × String) :=
  convertToSettingsL parsedConnectionString.toList

/-! ### Identifier normalization (`convertId`) -/

/-- Modelled from the spec: the string value of the
`AzureResourceType.AppService` enum member (the `constants` module is not
part of the excerpt).  The spec's normalization example strips the suffix
token `-AppService` from `myapp-AppService`, fixing this value. -/
def AzureResourceType_AppService : String := "AppService"

/-- JavaScript `s.replace(pat, rep)` with a string pattern: replace the
first (leftmost) occurrence of `pat` only; return `s` unchanged when
`pat` does not occur. -/
def replaceFirst (pat rep : List Char) : List Char → List Char
  | [] => if pat.isPrefixOf ([] : List Char) then rep else []
  | c :: cs =>
    if pat.isPrefixOf (c :: cs) then rep ++ (c :: cs).drop pat.length
    else c :: replaceFirst pat rep cs

/-- The `MS_RESOURCE_DEPLOYMENT` local constant of `convertId`. -/
def MS_RESOURCE_DEPLOYMENT : String := "Microsoft.Resources/deployments"

/-- The `MS_WEB_SITE` local constant of `convertId`. -/
def MS_WEB_SITE : String := "Microsoft.Web/sites"

/-- `convertId`: the workaround converting a deployment id into an app
service id — `rawId.replace(MS_RESOURCE_DEPLOYMENT, MS_WEB_SITE)
.replace("-" + AzureResourceType.AppService, "")`. -/
def convertId (rawId : String) : String :=
  (replaceFirst ("-" ++ AzureResourceType_AppService).toList []
    (replaceFirst MS_RESOURCE_DEPLOYMENT.toList MS_WEB_SITE.toList
      rawId.toList)).asString

/-! ### Resource-group planning -/

/-- A resource group as returned by the resource-group provider; only its
`name` is consulted. -/
structure ResourceGroup where
  name : String
deriving DecidableEq, Repr

/-- `ResourceGroupSelection` from the resource-group module. -/
structure ResourceGroupSelection where
  subscriptionItem : SubscriptionItem
  resourceGroupName : String
  location : String
deriving DecidableEq, Repr

/-- Worker for `dedupFirst`: drop every element already seen, in order. -/
def dedupFirstAux {α : Type} [DecidableEq α] (seen : List α) :
    List α → List α
  | [] => []
  | x :: xs =>
    if seen.contains x then dedupFirstAux seen xs
    else x :: dedupFirstAux (x :: seen) xs

/-- JavaScript `[...new Set(l)]`: keep the first occurrence of every
element, in order.  `Set` deduplicates by object identity, which the
structural equality of the embedded `SubscriptionItem` models. -/
def dedupFirst {α : Type} [DecidableEq α] (l : List α) : List α :=
  dedupFirstAux [] l

/-- `generateResourceGroupSelection`: start from the generated name; for a
Microsoft Learn subscription overwrite it with
`GetResourceGroups(subscription)[0].name` (reading `.name` of element `0`
of an empty array is a runtime `TypeError`, modelled as `none`); always
use the fixed `CENTRAL_US` location. -/
def generateResourceGroupSelection (MICROSOFT_LEARN_TENANTS : List String)
    (GetResourceGroups : SubscriptionItem → List ResourceGroup)
    (generatedName : String) (subscriptionItem : SubscriptionItem) :
    Option ResourceGroupSelection :=
  if IsMicrosoftLearnSubscription MICROSOFT_LEARN_TENANTS subscriptionItem then
    match GetResourceGroups subscriptionItem with
    | rg :: _ =>
      some { subscriptionItem := subscriptionItem,
             resourceGroupName := rg.name,
             location := CENTRAL_US }
    | [] => none
  else
    some { subscriptionItem := subscriptionItem,
           resourceGroupName := generatedName,
           location := CENTRAL_US }

/-- The payload consumed by `generateDistinctResourceGroupSelections`:
`engine.projectName`, the three `selectedX` flags and the corresponding
`X.subscription` labels. -/
structure GenerationPayload where
  projectName : String
  selectedFunctions : Bool
  functionsSubscription : String
  selectedCosmos : Bool
  cosmosSubscription : String
  selectedAppService : Bool
  appServiceSubscription : String
deriving DecidableEq, Repr

/-- Third `if` of `generateDistinctResourceGroupSelections`: when
`payload.selectedAppService`, update the AppService cache and push the
cached item onto `allSubscriptions`; an exception aborts with the state
mutated so far. -/
def collectAppServiceSubscription (st : AzureState) (payload : GenerationPayload)
    (allSubscriptions : List SubscriptionItem) :
    AzureState × Except AzureError (List SubscriptionItem) :=
  if payload.selectedAppService then
    match updateSubscriptionItemCache st.subscriptionItemList
        st.usersAppServiceSubscriptionItemCache payload.appServiceSubscription with
    | .error e => (st, .error e)
    | .ok s => ({ st with usersAppServiceSubscriptionItemCache := some s },
                .ok (allSubscriptions ++ [s]))
  else (st, .ok allSubscriptions)

/-- Second `if`: when `payload.selectedCosmos`, update the Cosmos cache and
push the cached item, then continue with the AppService `if`. -/
def collectCosmosSubscription (st : AzureState) (payload : GenerationPayload)
    (allSubscriptions : List SubscriptionItem) :
    AzureState × Except AzureError (List SubscriptionItem) :=
  if payload.selectedCosmos then
    match updateSubscriptionItemCache st.subscriptionItemList
        st.usersCosmosDBSubscriptionItemCache payload.cosmosSubscription with
    | .error e => (st, .error e)
    | .ok s => collectAppServiceSubscription
        { st with usersCosmosDBSubscriptionItemCache := some s } payload
        (allSubscriptions ++ [s])
  else collectAppServiceSubscription st payload allSubscriptions

/-- First `if` of `generateDistinctResourceGroupSelections`: when
`payload.selectedFunctions`, update the Functions cache and push the cached
item, then continue with the Cosmos and AppService `if`s.  The result is
the mutated state together with `allSubscriptions` in push order
(functions, cosmos, appService). -/
def collectSubscriptions (st : AzureState) (payload : GenerationPayload) :
    AzureState × Except AzureError (List SubscriptionItem) :=
  if payload.selectedFunctions then
    match updateSubscriptionItemCache st.subscriptionItemList
        st.usersFunctionSubscriptionItemCache payload.functionsSubscription with
    | .error e => (st, .error e)
    | .ok s => collectCosmosSubscription
        { st with usersFunctionSubscriptionItemCache := some s } payload [s]
  else collectCosmosSubscription st payload []

/-- `generateDistinctResourceGroupSelections`: collect the subscription of
every selected resource kind (via the per-kind cache updates), deduplicate
by identity (`[...new Set(allSubscriptions)]`), generate one candidate
resource-group name over the distinct subscriptions
(`generateValidResourceGroupName`, a provider call passed as a parameter),
and build one `ResourceGroupSelection` per distinct subscription. -/
def generateDistinctResourceGroupSelections (MICROSOFT_LEARN_TENANTS : List String)
    (generateValidResourceGroupName : String → List SubscriptionItem → String)
    (GetResourceGroups : SubscriptionItem → List ResourceGroup)
    (st : AzureState) (payload : GenerationPayload) :
    AzureState × Except AzureError (List ResourceGroupSelection) :=
  match collectSubscriptions st payload with
  | (st', .error e) => (st', .error e)
  | (st', .ok allSubscriptions) =>
    let allDistinctSubscriptions := dedupFirst allSubscriptions
    let generatedName :=
      generateValidResourceGroupName payload.projectName allDistinctSubscriptions
    match allDistinctSubscriptions.mapM
        (generateResourceGroupSelection MICROSOFT_LEARN_TENANTS
          GetResourceGroups generatedName) with
    | some selections => (st', .ok selections)
    | none => (st', .error (.ProviderError "TypeError"))

/-- `deployResourceGroup`: call the provider's `createResourceGroup` and
return its result unless the selection's subscription is a Microsoft Learn
subscription, in which case resolve to `undefined` without any provider
call.  The boolean records whether `createResourceGroup` was invoked. -/
def deployResourceGroup {α : Type} (MICROSOFT_LEARN_TENANTS : List String)
    (createResourceGroup : ResourceGroupSelection → α)
    (selections : ResourceGroupSelection) : Option α × Bool :=
  if ¬ IsMicrosoftLearnSubscription MICROSOFT_LEARN_TENANTS
      selections.subscriptionItem then
    (some (createResourceGroup selections), true)
  else (none, false)

/-! ### Deployment (`deployWebApp`, `deployFunctionApp`,
`deployCosmosResource`) -/

/-- A tier/SKU description (`CONSTANTS.SKU_DESCRIPTION`; the exact field
values are immaterial to the claims). -/
structure SkuDescription where
  tier : String
  name : String
deriving DecidableEq, Repr

/-- `CONSTANTS.SKU_DESCRIPTION.FREE`. -/
def SKU_FREE : SkuDescription := { tier := "Free", name := "F1" }

/-- `CONSTANTS.SKU_DESCRIPTION.BASIC`. -/
def SKU_BASIC : SkuDescription := { tier := "Basic", name := "B1" }

/-- `AppServiceSelections` from the app-service module. -/
structure AppServiceSelections where
  siteName : String
  subscriptionItem : SubscriptionItem
  resourceGroupItem : ResourceGroup
  appServicePlanName : String
  tier : String
  sku : String
  linuxFxVersion : String
  location : String
deriving DecidableEq, Repr

/-- The name-check gate each deploy function runs immediately before
creation: `if (invalidReason !== undefined && invalidReason === "")
{ throw new ValidationError(invalidReason); }` (the `.catch` around it
rethrows the error unchanged). -/
def deploymentNameGate (invalidReason : Option String) : Except AzureError Unit :=
  if invalidReason ≠ none ∧ invalidReason = some "" then
    .error (.ValidationError (invalidReason.getD ""))
  else .ok ()

/-- Outcome of a deploy entry point: whether the provider's create
operation was invoked, and the value returned / error thrown. -/
structure DeployOutcome (α : Type) where
  createInvoked : Bool
  result : Except AzureError α

/-- `deployWebApp`: update the AppService cache, generate an app-service
plan name, choose the free SKU for Learn subscriptions and the basic SKU
otherwise, assemble `AppServiceSelections`, run the pre-creation name
check through `deploymentNameGate`, then call `createWebApp`; a falsy
result id throws `Error(APP_SERVICE_UNDEFINED_ID)`, otherwise the id is
normalized with `convertId`.  Provider calls are parameters. -/
def deployWebApp
    (checkWebAppName : String → Option SubscriptionItem → Except AzureError (Option String))
    (createWebApp : AppServiceSelections → String → Option String)
    (generateValidASPName : String → String)
    (getResourceGroupItem : String → Option SubscriptionItem → ResourceGroup)
    (BackendFrameworkLinuxVersion : String → String)
    (MICROSOFT_LEARN_TENANTS : List String)
    (st : AzureState)
    (subscription siteName resourceGroup projectName backendFramework path : String) :
    DeployOutcome String :=
  match updateSubscriptionItemCache st.subscriptionItemList
      st.usersAppServiceSubscriptionItemCache subscription with
  | .error e => ⟨false, .error e⟩
  | .ok cacheItem =>
    let aspName := generateValidASPName projectName
    let appServicePlan :=
      if IsMicrosoftLearnSubscription MICROSOFT_LEARN_TENANTS cacheItem then
        SKU_FREE
      else SKU_BASIC
    let userAppServiceSelection : AppServiceSelections := {
      siteName := siteName,
      subscriptionItem := cacheItem,
      resourceGroupItem := getResourceGroupItem resourceGroup (some cacheItem),
      appServicePlanName := aspName,
      tier := appServicePlan.tier,
      sku := appServicePlan.name,
      linuxFxVersion := BackendFrameworkLinuxVersion backendFramework,
      location := CENTRAL_US }
    match checkWebAppName userAppServiceSelection.siteName
        (some userAppServiceSelection.subscriptionItem) with
    | .error e => ⟨false, .error e⟩
    | .ok invalidReason =>
      match deploymentNameGate invalidReason with
      | .error e => ⟨false, .error e⟩
      | .ok _ =>
        let result := createWebApp userAppServiceSelection path
        if jsNot result then ⟨true, .error (.GenericError APP_SERVICE_UNDEFINED_ID)⟩
        else ⟨true, .ok (convertId (result.getD ""))⟩

/-- `FunctionSelections` from the functions module. -/
structure FunctionSelections where
  functionAppName : String
  subscriptionItem : SubscriptionItem
  resourceGroupItem : ResourceGroup
  location : String
  runtime : String
  functionNames : List String
deriving DecidableEq, Repr

/-- `AppNameValidationResult` from `nameValidator` (repository code not in
the excerpt; only its two fields are consumed here). -/
structure AppNameValidationResult where
  isValid : Bool
  message : String
deriving DecidableEq, Repr

/-- `deployFunctionApp`: update the Functions cache, assemble
`FunctionSelections`, validate the individual function names
(`NameValidator.validateFunctionNames`, a parameter), run the
pre-creation app-name check through `deploymentNameGate`, then call
`createFunctionApp`. -/
def deployFunctionApp
    (checkFunctionAppName : String → Option SubscriptionItem → Except AzureError (Option String))
    (createFunctionApp : FunctionSelections → String → Unit)
    (validateFunctionNames : List String → AppNameValidationResult)
    (getResourceGroupItem : String → Option SubscriptionItem → ResourceGroup)
    (st : AzureState)
    (subscription appName resourceGroup location runtimeStack : String)
    (functionNames : List String) (appPath : String) : DeployOutcome Unit :=
  match updateSubscriptionItemCache st.subscriptionItemList
      st.usersFunctionSubscriptionItemCache subscription with
  | .error e => ⟨false, .error e⟩
  | .ok cacheItem =>
    let userFunctionsSelections : FunctionSelections := {
      functionAppName := appName,
      subscriptionItem := cacheItem,
      resourceGroupItem := getResourceGroupItem resourceGroup (some cacheItem),
      location := location,
      runtime := runtimeStack,
      functionNames := functionNames }
    let functionNamesValidation :=
      validateFunctionNames userFunctionsSelections.functionNames
    if ¬ functionNamesValidation.isValid then
      ⟨false, .error (.ValidationError functionNamesValidation.message)⟩
    else
      match checkFunctionAppName userFunctionsSelections.functionAppName
          (some userFunctionsSelections.subscriptionItem) with
      | .error e => ⟨false, .error e⟩
      | .ok invalidReason =>
        match deploymentNameGate invalidReason with
        | .error e => ⟨false, .error e⟩
        | .ok _ => ⟨true, .ok (createFunctionApp userFunctionsSelections appPath)⟩

/-- `CosmosDBSelections` from the cosmos module. -/
structure CosmosDBSelections where
  cosmosAPI : String
  cosmosDBResourceName : String
  location : String
  resourceGroupItem : ResourceGroup
  subscriptionItem : SubscriptionItem
deriving DecidableEq, Repr

/-- `DatabaseObject` from the cosmos module; only passed through here. -/
structure DatabaseObject where
  connectionString : String
deriving DecidableEq, Repr

/-- `deployCosmosResource`: update the Cosmos cache, assemble
`CosmosDBSelections` (fixed `CENTRAL_US` location), run the pre-creation
account-name check through `deploymentNameGate`, then call
`createCosmosDB`. -/
def deployCosmosResource
    (validateCosmosDBAccountName : String → Option SubscriptionItem → Except AzureError (Option String))
    (createCosmosDB : CosmosDBSelections → String → DatabaseObject)
    (getResourceGroupItem : String → Option SubscriptionItem → ResourceGroup)
    (st : AzureState)
    (subscription api accountName resourceGroup genPath : String) :
    DeployOutcome DatabaseObject :=
  match updateSubscriptionItemCache st.subscriptionItemList
      st.usersCosmosDBSubscriptionItemCache subscription with
  | .error e => ⟨false, .error e⟩
  | .ok cacheItem =>
    let userCosmosDBSelection : CosmosDBSelections := {
      cosmosAPI := api,
      cosmosDBResourceName := accountName,
      location := CENTRAL_US,
      resourceGroupItem := getResourceGroupItem resourceGroup (some cacheItem),
      subscriptionItem := cacheItem }
    match validateCosmosDBAccountName userCosmosDBSelection.cosmosDBResourceName
        (some userCosmosDBSelection.subscriptionItem) with
    | .error e => ⟨false, .error e⟩
    | .ok invalidReason =>
      match deploymentNameGate invalidReason with
      | .error e => ⟨false, .error e⟩
      | .ok _ => ⟨true, .ok (createCosmosDB userCosmosDBSelection genPath)⟩

/-! ### Command-handler state machine -/

/-- The state-changing command handlers of the dispatch table, as events:
`getUserStatus` is `sendUserStatusIfLoggedIn` (which replaces
`subscriptionItemList` with a fresh auth-provider list exactly when an
email is present, and leaves the caches untouched); the three `nameX`
events are the name-validation handlers (whose only state change is the
per-kind cache update, kept on success and discarded on a thrown error);
`planResourceGroups` is `generateDistinctResourceGroupSelections`. -/
inductive AzureEvent where
  | getUserStatus (email : Option String) (freshSubscriptions : List SubscriptionItem)
  | nameAppService (subscriptionLabel : String)
  | nameCosmos (subscriptionLabel : String)
  | nameFunctions (subscriptionLabel : String)
  | planResourceGroups (payload : GenerationPayload)
deriving DecidableEq, Repr

/-- The state transition of one command-handler invocation (a handler that
throws leaves the static fields as mutated up to the throw). -/
def stepEvent (st : AzureState) : AzureEvent → AzureState
  | .getUserStatus email freshSubscriptions =>
    if email.isSome then { st with subscriptionItemList := freshSubscriptions }
    else st
  | .nameAppService l =>
    match updateAppServiceSubscriptionItemCache st l with
    | .ok st' => st'
    | .error _ => st
  | .nameCosmos l =>
    match updateCosmosDBSubscriptionItemCache st l with
    | .ok st' => st'
    | .error _ => st
  | .nameFunctions l =>
    match updateFunctionSubscriptionItemCache st l with
    | .ok st' => st'
    | .error _ => st
  | .planResourceGroups payload => (collectSubscriptions st payload).1

/-- Run a sequence of command-handler invocations. -/
def runEvents (st : AzureState) (events : List AzureEvent) : AzureState :=
  events.foldl stepEvent st

/-- `true` when an absent cache entry or one contained in `list`. -/
def cacheEntryInList (cache : Option SubscriptionItem)
    (list : List SubscriptionItem) : Bool :=
  match cache with
  | none => true
  | some c => list.contains c

/-- The claimed invariant: every non-empty per-resource-kind cache entry
is an element of the current `subscriptionItemList`. -/
def cacheConsistent (st : AzureState) : Bool :=
  cacheEntryInList st.usersFunctionSubscriptionItemCache st.subscriptionItemList &&
  cacheEntryInList st.usersCosmosDBSubscriptionItemCache st.subscriptionItemList &&
  cacheEntryInList st.usersAppServiceSubscriptionItemCache st.subscriptionItemList

/-- An event that replaces `subscriptionItemList`: a user-status (or login)
re-run with a logged-in email. -/
def refreshesSubscriptionList : AzureEvent → Bool
  | .getUserStatus email _ => email.isSome
  | _ => false

/-! ### Auxiliary definitions for the cache-sequence property -/

/-- Run a sequence of `updateSubscriptionItemCache` calls against one
cache slot, keeping the slot unchanged whenever a call throws. -/
def runCacheUpdates (list : List SubscriptionItem) :
    Option SubscriptionItem → List String → Option SubscriptionItem
  | cache, [] => cache
  | cache, l :: ls =>
    match updateSubscriptionItemCache list cache l with
    | .ok s => runCacheUpdates list (some s) ls
    | .error _ => runCacheUpdates list cache ls

/-- Whether a single `updateSubscriptionItemCache` call succeeds, phrased
on the cached label only: it succeeds iff the cache already carries the
requested label or the label occurs in the subscription list. -/
def callSucceeds (list : List SubscriptionItem) (cachedLabel : Option String)
    (subscriptionLabel : String) : Bool :=
  cachedLabel = some subscriptionLabel ||
    (list.map SubscriptionItem.label).contains subscriptionLabel

/-- The label of the most recent successful call of a sequence (falling
back to the initial cached label when no call succeeds). -/
def lastSuccessfulLabel (list : List SubscriptionItem) :
    Option String → List String → Option String
  | cachedLabel, [] => cachedLabel
  | cachedLabel, l :: ls =>
    lastSuccessfulLabel list
      (if callSucceeds list cachedLabel l then some l else cachedLabel) ls

/-! ### Fixture data used by witnesses and counterexamples -/

/-- Fixture: a subscription with label `"L1"`. -/
def sub1 : SubscriptionItem := ⟨1, "L1", ⟨"tenant1"⟩⟩

/-- Fixture: a subscription with label `"L2"`. -/
def sub2 : SubscriptionItem := ⟨2, "L2", ⟨"tenant2"⟩⟩

/-- Fixture: a subscription on a Learn/sandbox tenant. -/
def subLearn : SubscriptionItem := ⟨3, "L3", ⟨"learnTenant"⟩⟩

/-- Fixture: a session state holding `sub1` and `sub2`, all caches empty. -/
def stA : AzureState := ⟨[sub1, sub2], none, none, none⟩

/-! ### Lemmas on `splitNl` -/

/-- Concatenation of newline-terminated lines. -/
def joinNlLines (lines : List (List Char)) : List Char :=
  (lines.map (fun l => l ++ ['\n'])).flatten

theorem splitNl_term_append (l : List Char) (h : '\n' ∉ l) (rest : List Char) :
    splitNl (l ++ '\n' :: rest) = l :: splitNl rest := by
  induction l with
  | nil => simp [splitNl]
  | cons c cs ih =>
    simp only [List.mem_cons, not_or] at h
    have hc : ¬ c = '\n' := fun hcn => h.1 hcn.symm
    simp only [List.cons_append, splitNl, if_neg hc, List.append_eq, ih h.2]

theorem splitNl_joinNlLines (lines : List (List Char))
    (h : ∀ l ∈ lines, '\n' ∉ l) :
    splitNl (joinNlLines lines) = lines ++ [[]] := by
  induction lines with
  | nil => simp [joinNlLines, splitNl]
  | cons l ls ih =>
    have hl : '\n' ∉ l := h l (List.mem_cons_self _ _)
    have hls : ∀ x ∈ ls, '\n' ∉ x := fun x hx => h x (List.mem_cons_of_mem _ hx)
    have : joinNlLines (l :: ls) = l ++ '\n' :: joinNlLines ls := by
      simp [joinNlLines, List.append_assoc]
    rw [this, splitNl_term_append l hl, ih hls, List.cons_append]

/-- C2 (counterexample): the claim asserts that an input with no trailing
newline still yields an entry for every well-formed line; on
`"A=1\nB=2"` the code drops the final well-formed line `B=2` entirely
(the loop stops before the last newline-separated segment whether or not
it is empty). -/
theorem claim_C2_counterexample :
    convertToSettings "A=1\nB=2" = [("A", "1")] ∧
    ("B", "2") ∉ convertToSettings "A=1\nB=2" := by
  constructor
  · rfl
  · decide

/-- C2 (amended): `convertToSettings` maps `"A=1\nB=2\n"` to
`{A: "1", B: "2"}`; each newline-separated line is split at its first
`'='` (so `"A=x=y\n"` yields `{A: "x=y"}`); the final newline-separated
segment is always discarded — in particular the trailing empty segment of
a newline-terminated input — and every newline-terminated well-formed
line yields its entry.  (An input with no trailing newline loses its
final line.) -/
theorem claim_C2_amended :
    convertToSettings "A=1\nB=2\n" = [("A", "1"), ("B", "2")] ∧
    convertToSettings "A=x=y\n" = [("A", "x=y")] ∧
    ∀ lines : List (List Char), (∀ l ∈ lines, '\n' ∉ l) →
      convertToSettingsL (joinNlLines lines) =
        lines.foldl
          (fun result f => objInsert result (lineEntry f).1 (lineEntry f).2)
          [] := by
  refine ⟨rfl, rfl, fun lines h => ?_⟩
  simp only [convertToSettingsL]
  rw [splitNl_joinNlLines lines h]
  have hlen : (lines ++ [[]]).length - 1 = lines.length := by simp
  rw [hlen, List.take_left]

/-- C2 (witness for the amended theorem): two newline-free lines, each
newline-terminated, both parsed. -/
theorem claim_C2_witness :
    convertToSettingsL (joinNlLines ["A=1".toList, "B=2".toList]) =
      [("A", "1"), ("B", "2")] := by
  have h := claim_C2_amended.2.2 ["A=1".toList, "B=2".toList] (by decide)
  rw [h]
  rfl

/-! ### Lemmas on `replaceFirst` -/

theorem replaceFirst_of_isPrefixOf (pat rep s : List Char)
    (h : pat.isPrefixOf s = true) :
    replaceFirst pat rep s = rep ++ s.drop pat.length := by
  cases s with
  | nil =>
    have hpat : pat = [] := by
      cases pat with
      | nil => rfl
      | cons p ps => simp [List.isPrefixOf] at h
    subst hpat
    simp [replaceFirst]
  | cons c cs => simp [replaceFirst, h]

theorem replaceFirst_cons_of_not_isPrefixOf (pat rep : List Char) (c : Char)
    (cs : List Char) (h : pat.isPrefixOf (c :: cs) = false) :
    replaceFirst pat rep (c :: cs) = c :: replaceFirst pat rep cs := by
  simp [replaceFirst, h]

/-- `replace` hits the first occurrence: if `s = a ++ pat ++ b` and no
occurrence of `pat` starts inside `a`, the replacement yields
`a ++ rep ++ b`. -/
theorem replaceFirst_first_occ (pat rep : List Char) :
    ∀ a b s : List Char, s = a ++ pat ++ b →
      (∀ i, i < a.length → pat.isPrefixOf (s.drop i) = false) →
      replaceFirst pat rep s = a ++ rep ++ b := by
  intro a
  induction a with
  | nil =>
    intro b s hs _
    subst hs
    rw [replaceFirst_of_isPrefixOf pat rep _
      (List.isPrefixOf_iff_prefix.mpr (by simp [List.prefix_append]))]
    simp [List.drop_left]
  | cons c a' ih =>
    intro b s hs h
    subst hs
    have h0 : pat.isPrefixOf (c :: (a' ++ pat ++ b)) = false := by
      have := h 0 (Nat.succ_pos _)
      simpa using this
    have hrest : ∀ i, i < a'.length →
        pat.isPrefixOf ((a' ++ pat ++ b).drop i) = false := by
      intro i hi
      have := h (i + 1) (Nat.succ_lt_succ hi)
      simpa using this
    calc replaceFirst pat rep ((c :: a') ++ pat ++ b)
        = replaceFirst pat rep (c :: (a' ++ pat ++ b)) := by simp
      _ = c :: replaceFirst pat rep (a' ++ pat ++ b) :=
          replaceFirst_cons_of_not_isPrefixOf pat rep _ _ h0
      _ = c :: (a' ++ rep ++ b) := by rw [ih b _ rfl hrest]
      _ = (c :: a') ++ rep ++ b := by simp

/-- C9: `convertId` rewrites the first `Microsoft.Resources/deployments`
segment to `Microsoft.Web/sites` and strips the first `-AppService`
suffix token; in particular the claimed example id is normalized as
stated, and the transform acts as claimed on every id in which those
tokens occur first at the deployment segment and at the site-name
suffix. -/
theorem claim_C9_convertId :
    (convertId ("/subscriptions/s1/resourceGroups/rg1/providers/" ++
        "Microsoft.Resources/deployments/myapp-AppService") =
      "/subscriptions/s1/resourceGroups/rg1/providers/Microsoft.Web/sites/myapp")
    ∧ ∀ pre name : List Char,
      (∀ i, i < pre.length →
        MS_RESOURCE_DEPLOYMENT.toList.isPrefixOf
          ((pre ++ MS_RESOURCE_DEPLOYMENT.toList ++
            ('/' :: name ++ "-AppService".toList)).drop i) = false) →
      (∀ i, i < (pre ++ MS_WEB_SITE.toList ++ '/' :: name).length →
        "-AppService".toList.isPrefixOf
          ((pre ++ MS_WEB_SITE.toList ++
            ('/' :: name ++ "-AppService".toList)).drop i) = false) →
      convertId (pre ++ MS_RESOURCE_DEPLOYMENT.toList ++
          ('/' :: name ++ "-AppService".toList)).asString =
        (pre ++ MS_WEB_SITE.toList ++ '/' :: name).asString := by
  constructor
  · rfl
  · intro pre name h1 h2
    unfold convertId
    have htl : ((pre ++ MS_RESOURCE_DEPLOYMENT.toList ++
        ('/' :: name ++ "-AppService".toList)).asString).toList =
        pre ++ MS_RESOURCE_DEPLOYMENT.toList ++
          ('/' :: name ++ "-AppService".toList) := rfl
    rw [htl]
    rw [replaceFirst_first_occ MS_RESOURCE_DEPLOYMENT.toList MS_WEB_SITE.toList
      pre ('/' :: name ++ "-AppService".toList) _ rfl h1]
    have hsuffix : ("-" ++ AzureResourceType_AppService).toList =
        "-AppService".toList := rfl
    rw [hsuffix]
    rw [replaceFirst_first_occ "-AppService".toList []
      (pre ++ MS_WEB_SITE.toList ++ '/' :: name) []
      (pre ++ MS_WEB_SITE.toList ++ ('/' :: name ++ "-AppService".toList))
      (by simp) h2]
    simp

/-- C9 (witness): the general conjunct applied to a concrete id. -/
theorem claim_C9_witness :
    convertId ("/p/".toList ++ MS_RESOURCE_DEPLOYMENT.toList ++
        ('/' :: "app".toList ++ "-AppService".toList)).asString =
      ("/p/".toList ++ MS_WEB_SITE.toList ++ '/' :: "app".toList).asString :=
  claim_C9_convertId.2 "/p/".toList "app".toList (by decide) (by decide)

/-! ### Lemmas on the subscription cache -/

theorem updateCache_hit (list : List SubscriptionItem) (c : SubscriptionItem)
    (l : String) (h : c.label = l) :
    updateSubscriptionItemCache list (some c) l = .ok c := by
  simp [updateSubscriptionItemCache, h]

theorem updateCache_ok (list : List SubscriptionItem)
    (cache : Option SubscriptionItem) (l : String) (s : SubscriptionItem)
    (h : updateSubscriptionItemCache list cache l = .ok s) :
    s.label = l ∧ (s ∈ list ∨ cache = some s) := by
  cases cache with
  | none =>
    simp only [updateSubscriptionItemCache] at h
    cases hf : list.find? (fun x => x.label = l) with
    | none => rw [hf] at h; exact absurd h (by simp)
    | some x =>
      rw [hf] at h
      have hx : x = s := by simpa using h
      have hp := List.find?_some hf
      have hmem := List.mem_of_find?_eq_some hf
      subst hx
      exact ⟨of_decide_eq_true hp, Or.inl hmem⟩
  | some c =>
    simp only [updateSubscriptionItemCache] at h
    by_cases hl : l ≠ c.label
    · rw [if_pos hl] at h
      cases hf : list.find? (fun x => x.label = l) with
      | none => rw [hf] at h; exact absurd h (by simp)
      | some x =>
        rw [hf] at h
        have hx : x = s := by simpa using h
        have hp := List.find?_some hf
        have hmem := List.mem_of_find?_eq_some hf
        subst hx
        exact ⟨of_decide_eq_true hp, Or.inl hmem⟩
    · rw [if_neg hl] at h
      have hc : c = s := by simpa using h
      subst hc
      exact ⟨(not_ne_iff.mp hl).symm, Or.inr rfl⟩

theorem updateCache_error (list : List SubscriptionItem)
    (cache : Option SubscriptionItem) (l : String) (e : AzureError)
    (h : updateSubscriptionItemCache list cache l = .error e) :
    e = .SubscriptionError SUBSCRIPTION_NOT_FOUND ∧
      (∀ s ∈ list, s.label ≠ l) ∧
      (∀ c, cache = some c → c.label ≠ l) := by
  cases cache with
  | none =>
    simp only [updateSubscriptionItemCache] at h
    cases hf : list.find? (fun x => x.label = l) with
    | none =>
      refine ⟨by rw [hf] at h; simpa using h.symm, fun s hs => ?_, by simp⟩
      have := List.find?_eq_none.mp hf s hs
      simpa using this
    | some x => rw [hf] at h; exact absurd h (by simp)
  | some c =>
    simp only [updateSubscriptionItemCache] at h
    by_cases hl : l ≠ c.label
    · rw [if_pos hl] at h
      cases hf : list.find? (fun x => x.label = l) with
      | none =>
        refine ⟨by rw [hf] at h; simpa using h.symm, fun s hs => ?_, ?_⟩
        · have := List.find?_eq_none.mp hf s hs
          simpa using this
        · intro c' hc' hlbl
          cases hc'
          exact hl hlbl.symm
      | some x => rw [hf] at h; exact absurd h (by simp)
    · rw [if_neg hl] at h
      exact absurd h (by simp)

theorem updateCache_ok_callSucceeds (list : List SubscriptionItem)
    (cache : Option SubscriptionItem) (l : String) (s : SubscriptionItem)
    (h : updateSubscriptionItemCache list cache l = .ok s) :
    callSucceeds list (cache.map SubscriptionItem.label) l = true := by
  obtain ⟨hlbl, hmem | hc⟩ := updateCache_ok list cache l s h
  · have : l ∈ list.map SubscriptionItem.label :=
      List.mem_map.mpr ⟨s, hmem, hlbl⟩
    simp [callSucceeds, List.elem_iff, this]
  · subst hc
    simp [callSucceeds, hlbl]

theorem updateCache_error_callSucceeds (list : List SubscriptionItem)
    (cache : Option SubscriptionItem) (l : String) (e : AzureError)
    (h : updateSubscriptionItemCache list cache l = .error e) :
    callSucceeds list (cache.map SubscriptionItem.label) l = false := by
  obtain ⟨-, habs, hcache⟩ := updateCache_error list cache l e h
  have h1 : ¬ (cache.map SubscriptionItem.label = some l) := by
    cases cache with
    | none => simp
    | some c => simpa using hcache c rfl
  have h2 : l ∉ list.map SubscriptionItem.label := by
    intro hmem
    obtain ⟨s, hs, hlbl⟩ := List.mem_map.mp hmem
    exact habs s hs hlbl
  simp only [callSucceeds, Bool.or_eq_false_iff]
  constructor
  · simpa using h1
  · simpa [List.elem_iff] using h2

theorem runCacheUpdates_label (list : List SubscriptionItem) :
    ∀ (labels : List String) (cache : Option SubscriptionItem),
      (runCacheUpdates list cache labels).map SubscriptionItem.label =
        lastSuccessfulLabel list (cache.map SubscriptionItem.label) labels := by
  intro labels
  induction labels with
  | nil => intro cache; simp [runCacheUpdates, lastSuccessfulLabel]
  | cons l ls ih =>
    intro cache
    rw [runCacheUpdates, lastSuccessfulLabel]
    cases hu : updateSubscriptionItemCache list cache l with
    | ok s =>
      rw [updateCache_ok_callSucceeds list cache l s hu, if_pos rfl, ih]
      have : s.label = l := (updateCache_ok list cache l s hu).1
      simp [this]
    | error e =>
      rw [updateCache_error_callSucceeds list cache l e hu, ih]
      simp

/-- Replacing a cache field with its own current value is the identity. -/
theorem setAppServiceCache_self (st : AzureState) (c : SubscriptionItem)
    (h : st.usersAppServiceSubscriptionItemCache = some c) :
    { st with usersAppServiceSubscriptionItemCache := some c } = st := by
  cases st
  simp_all

theorem setCosmosCache_self (st : AzureState) (c : SubscriptionItem)
    (h : st.usersCosmosDBSubscriptionItemCache = some c) :
    { st with usersCosmosDBSubscriptionItemCache := some c } = st := by
  cases st
  simp_all

theorem setFunctionCache_self (st : AzureState) (c : SubscriptionItem)
    (h : st.usersFunctionSubscriptionItemCache = some c) :
    { st with usersFunctionSubscriptionItemCache := some c } = st := by
  cases st
  simp_all

/-- C3: a per-kind cache update with the already-cached label leaves the
entire state unchanged; a successful update yields the subscription with
the requested label (looked up in the current list unless it was the
cached entry); a failed update throws
`SubscriptionError(SUBSCRIPTION_NOT_FOUND)`, happens exactly when the
label is absent, and leaves the cache slot unchanged; and over any
sequence of calls the cache carries the label of the most recent
successful call. -/
theorem claim_C3_subscription_cache :
    ∀ (st : AzureState) (list : List SubscriptionItem)
      (cache : Option SubscriptionItem) (l : String),
      (∀ c, st.usersAppServiceSubscriptionItemCache = some c → c.label = l →
        updateAppServiceSubscriptionItemCache st l = .ok st) ∧
      (∀ c, st.usersCosmosDBSubscriptionItemCache = some c → c.label = l →
        updateCosmosDBSubscriptionItemCache st l = .ok st) ∧
      (∀ c, st.usersFunctionSubscriptionItemCache = some c → c.label = l →
        updateFunctionSubscriptionItemCache st l = .ok st) ∧
      (∀ s, updateSubscriptionItemCache list cache l = .ok s →
        s.label = l ∧ (s ∈ list ∨ cache = some s)) ∧
      (∀ e, updateSubscriptionItemCache list cache l = .error e →
        e = .SubscriptionError SUBSCRIPTION_NOT_FOUND ∧
        (∀ s ∈ list, s.label ≠ l) ∧
        runCacheUpdates list cache [l] = cache) ∧
      (∀ labels : List String,
        (runCacheUpdates list cache labels).map SubscriptionItem.label =
          lastSuccessfulLabel list (cache.map SubscriptionItem.label) labels) := by
  intro st list cache l
  refine ⟨?_, ?_, ?_, ?_, ?_, fun labels => runCacheUpdates_label list labels cache⟩
  · intro c hc hlbl
    rw [updateAppServiceSubscriptionItemCache, hc, updateCache_hit _ c l hlbl]
    simp [Except.map, setAppServiceCache_self st c hc]
  · intro c hc hlbl
    rw [updateCosmosDBSubscriptionItemCache, hc, updateCache_hit _ c l hlbl]
    simp [Except.map, setCosmosCache_self st c hc]
  · intro c hc hlbl
    rw [updateFunctionSubscriptionItemCache, hc, updateCache_hit _ c l hlbl]
    simp [Except.map, setFunctionCache_self st c hc]
  · exact fun s h => updateCache_ok list cache l s h
  · intro e h
    obtain ⟨he, habs, -⟩ := updateCache_error list cache l e h
    refine ⟨he, habs, ?_⟩
    rw [runCacheUpdates, h, runCacheUpdates]

/-- C3 (witness): a cache-hit call leaves the state unchanged, and a call
with a label absent from the list throws `SubscriptionError` and leaves
the cache unchanged. -/
theorem claim_C3_witness :
    (updateAppServiceSubscriptionItemCache ⟨[sub1, sub2], none, none, some sub1⟩
        "L1" = .ok ⟨[sub1, sub2], none, none, some sub1⟩) ∧
    ((AzureError.SubscriptionError SUBSCRIPTION_NOT_FOUND : AzureError) =
        .SubscriptionError SUBSCRIPTION_NOT_FOUND ∧
      (∀ s ∈ [sub1, sub2], s.label ≠ "LX") ∧
      runCacheUpdates [sub1, sub2] (some sub1) ["LX"] = some sub1) := by
  constructor
  · exact (claim_C3_subscription_cache ⟨[sub1, sub2], none, none, some sub1⟩
      [sub1, sub2] none "L1").1 sub1 rfl rfl
  · exact (claim_C3_subscription_cache stA [sub1, sub2] (some sub1)
      "LX").2.2.2.2.1 (.SubscriptionError SUBSCRIPTION_NOT_FOUND) rfl

/-! ### Lemmas on the command-handler state machine -/

theorem cacheEntryInList_of_ok (list : List SubscriptionItem)
    (cache : Option SubscriptionItem) (l : String) (s : SubscriptionItem)
    (h : updateSubscriptionItemCache list cache l = .ok s)
    (hprev : cacheEntryInList cache list = true) :
    cacheEntryInList (some s) list = true := by
  obtain ⟨-, hmem | hcache⟩ := updateCache_ok list cache l s h
  · exact List.elem_iff.mpr hmem
  · subst hcache
    simpa [cacheEntryInList] using hprev

theorem updateAppServiceCache_ok_destruct (st : AzureState) (l : String)
    (st' : AzureState) (h : updateAppServiceSubscriptionItemCache st l = .ok st') :
    ∃ s, updateSubscriptionItemCache st.subscriptionItemList
        st.usersAppServiceSubscriptionItemCache l = .ok s ∧
      st' = { st with usersAppServiceSubscriptionItemCache := some s } := by
  unfold updateAppServiceSubscriptionItemCache at h
  cases hu : updateSubscriptionItemCache st.subscriptionItemList
      st.usersAppServiceSubscriptionItemCache l with
  | ok s =>
    rw [hu] at h
    exact ⟨s, rfl, by simpa [Except.map] using h.symm⟩
  | error e => rw [hu] at h; simp [Except.map] at h

theorem updateCosmosCache_ok_destruct (st : AzureState) (l : String)
    (st' : AzureState) (h : updateCosmosDBSubscriptionItemCache st l = .ok st') :
    ∃ s, updateSubscriptionItemCache st.subscriptionItemList
        st.usersCosmosDBSubscriptionItemCache l = .ok s ∧
      st' = { st with usersCosmosDBSubscriptionItemCache := some s } := by
  unfold updateCosmosDBSubscriptionItemCache at h
  cases hu : updateSubscriptionItemCache st.subscriptionItemList
      st.usersCosmosDBSubscriptionItemCache l with
  | ok s =>
    rw [hu] at h
    exact ⟨s, rfl, by simpa [Except.map] using h.symm⟩
  | error e => rw [hu] at h; simp [Except.map] at h

theorem updateFunctionCache_ok_destruct (st : AzureState) (l : String)
    (st' : AzureState) (h : updateFunctionSubscriptionItemCache st l = .ok st') :
    ∃ s, updateSubscriptionItemCache st.subscriptionItemList
        st.usersFunctionSubscriptionItemCache l = .ok s ∧
      st' = { st with usersFunctionSubscriptionItemCache := some s } := by
  unfold updateFunctionSubscriptionItemCache at h
  cases hu : updateSubscriptionItemCache st.subscriptionItemList
      st.usersFunctionSubscriptionItemCache l with
  | ok s =>
    rw [hu] at h
    exact ⟨s, rfl, by simpa [Except.map] using h.symm⟩
  | error e => rw [hu] at h; simp [Except.map] at h

theorem collectAppService_preserves (st : AzureState) (p : GenerationPayload)
    (acc : List SubscriptionItem) (hc : cacheConsistent st = true) :
    cacheConsistent (collectAppServiceSubscription st p acc).1 = true := by
  unfold collectAppServiceSubscription
  by_cases hsel : p.selectedAppService
  · rw [if_pos hsel]
    cases hu : updateSubscriptionItemCache st.subscriptionItemList
        st.usersAppServiceSubscriptionItemCache p.appServiceSubscription with
    | error e => exact hc
    | ok s =>
      simp only [cacheConsistent, Bool.and_eq_true] at hc ⊢
      exact ⟨⟨hc.1.1, hc.1.2⟩, cacheEntryInList_of_ok _ _ _ _ hu hc.2⟩
  · rw [if_neg hsel]; exact hc

theorem collectCosmos_preserves (st : AzureState) (p : GenerationPayload)
    (acc : List SubscriptionItem) (hc : cacheConsistent st = true) :
    cacheConsistent (collectCosmosSubscription st p acc).1 = true := by
  unfold collectCosmosSubscription
  by_cases hsel : p.selectedCosmos
  · rw [if_pos hsel]
    cases hu : updateSubscriptionItemCache st.subscriptionItemList
        st.usersCosmosDBSubscriptionItemCache p.cosmosSubscription with
    | error e => exact hc
    | ok s =>
      apply collectAppService_preserves
      simp only [cacheConsistent, Bool.and_eq_true] at hc ⊢
      exact ⟨⟨hc.1.1, cacheEntryInList_of_ok _ _ _ _ hu hc.1.2⟩, hc.2⟩
  · rw [if_neg hsel]; exact collectAppService_preserves st p acc hc

theorem collectSubscriptions_preserves (st : AzureState) (p : GenerationPayload)
    (hc : cacheConsistent st = true) :
    cacheConsistent (collectSubscriptions st p).1 = true := by
  unfold collectSubscriptions
  by_cases hsel : p.selectedFunctions
  · rw [if_pos hsel]
    cases hu : updateSubscriptionItemCache st.subscriptionItemList
        st.usersFunctionSubscriptionItemCache p.functionsSubscription with
    | error e => exact hc
    | ok s =>
      apply collectCosmos_preserves
      simp only [cacheConsistent, Bool.and_eq_true] at hc ⊢
      exact ⟨⟨cacheEntryInList_of_ok _ _ _ _ hu hc.1.1, hc.1.2⟩, hc.2⟩
  · rw [if_neg hsel]; exact collectCosmos_preserves st p [] hc

theorem stepEvent_preserves (st : AzureState) (e : AzureEvent)
    (hc : cacheConsistent st = true) (hr : refreshesSubscriptionList e = false) :
    cacheConsistent (stepEvent st e) = true := by
  cases e with
  | getUserStatus email fresh =>
    cases email with
    | none => simpa [stepEvent] using hc
    | some _ => simp [refreshesSubscriptionList] at hr
  | nameAppService l =>
    rw [stepEvent]
    cases hu : updateAppServiceSubscriptionItemCache st l with
    | error e' => exact hc
    | ok st' =>
      obtain ⟨s, hcore, hst'⟩ := updateAppServiceCache_ok_destruct st l st' hu
      subst hst'
      simp only [cacheConsistent, Bool.and_eq_true] at hc ⊢
      exact ⟨⟨hc.1.1, hc.1.2⟩, cacheEntryInList_of_ok _ _ _ _ hcore hc.2⟩
  | nameCosmos l =>
    rw [stepEvent]
    cases hu : updateCosmosDBSubscriptionItemCache st l with
    | error e' => exact hc
    | ok st' =>
      obtain ⟨s, hcore, hst'⟩ := updateCosmosCache_ok_destruct st l st' hu
      subst hst'
      simp only [cacheConsistent, Bool.and_eq_true] at hc ⊢
      exact ⟨⟨hc.1.1, cacheEntryInList_of_ok _ _ _ _ hcore hc.1.2⟩, hc.2⟩
  | nameFunctions l =>
    rw [stepEvent]
    cases hu : updateFunctionSubscriptionItemCache st l with
    | error e' => exact hc
    | ok st' =>
      obtain ⟨s, hcore, hst'⟩ := updateFunctionCache_ok_destruct st l st' hu
      subst hst'
      simp only [cacheConsistent, Bool.and_eq_true] at hc ⊢
      exact ⟨⟨cacheEntryInList_of_ok _ _ _ _ hcore hc.1.1, hc.1.2⟩, hc.2⟩
  | planResourceGroups p => exact collectSubscriptions_preserves st p hc

/-- C4 (counterexample): from the initial state, log in (populating the
subscription list), populate the AppService cache, then re-run the
user-status handler with a refreshed subscription list that no longer
contains the cached item: the cache now holds a subscription absent from
the current `subscriptionItemList`, refuting the claimed invariant for
this reachable state. -/
theorem claim_C4_counterexample :
    cacheConsistent (runEvents ⟨[], none, none, none⟩
      [AzureEvent.getUserStatus (some "user") [sub1],
       AzureEvent.nameAppService "L1",
       AzureEvent.getUserStatus (some "user") [sub2]]) = false := by
  decide

/-- C4 (amended): the invariant holds for every state reachable by a
sequence of command-handler invocations none of which refreshes the
subscription list (i.e. no logged-in user-status/login re-run): starting
from any consistent state, every non-empty per-resource-kind cache entry
remains an element of the current `subscriptionItemList`.  A logged-in
user-status re-run can strand previously cached entries outside the
refreshed list. -/
theorem claim_C4_amended (st : AzureState) (events : List AzureEvent)
    (hc : cacheConsistent st = true)
    (hr : ∀ e ∈ events, refreshesSubscriptionList e = false) :
    cacheConsistent (runEvents st events) = true := by
  induction events generalizing st with
  | nil => simpa [runEvents] using hc
  | cons e es ih =>
    have h1 : runEvents st (e :: es) = runEvents (stepEvent st e) es := by
      simp [runEvents]
    rw [h1]
    exact ih (stepEvent st e)
      (stepEvent_preserves st e hc (hr e (List.mem_cons_self _ _)))
      (fun e' he' => hr e' (List.mem_cons_of_mem _ he'))

/-- C4 (witness for the amended theorem): a refresh-free sequence of cache
updates and a logged-out status query keeps the caches inside the list. -/
theorem claim_C4_witness :
    cacheConsistent (runEvents stA
      [AzureEvent.nameAppService "L1", AzureEvent.nameCosmos "L2",
       AzureEvent.getUserStatus none [sub2]]) = true :=
  claim_C4_amended stA
    [AzureEvent.nameAppService "L1", AzureEvent.nameCosmos "L2",
     AzureEvent.getUserStatus none [sub2]]
    (by decide) (by decide)

/-- C5 (code evaluation): the `NameFunctions` handler's response payload
carries no `scope` property at all, while the sibling `NameAppService`
handler run on the same message data echoes the message's scope token —
refuting scope echoing for every command in the dispatch table. -/
theorem claim_C5_code_evaluation :
    sendFunctionNameValidationStatusToClient (fun _ _ => .ok none) stA
        "L1" "app" =
      .ok (⟨[sub1, sub2], some sub1, none, none⟩,
           { scope := none, isAvailable := true, reason := none }) ∧
    sendAppServiceNameValidationStatusToClient (fun _ _ => .ok none) stA
        "L1" "app" "scope42" =
      .ok (⟨[sub1, sub2], none, none, some sub1⟩,
           { scope := some "scope42", isAvailable := true, reason := none }) :=
  ⟨rfl, rfl⟩

/-- `isAvailable` is true exactly for an absent or empty invalid-reason. -/
theorem nameIsAvailable_iff (r : Option String) :
    nameIsAvailable r = true ↔ (r = none ∨ r = some "") := by
  cases r with
  | none => simp [nameIsAvailable, jsNot]
  | some s => simp [nameIsAvailable, jsNot]

/-- C6: each name-validation handler, when the provider check resolves to
a reason `r`, returns (does not throw) a payload whose `isAvailable` is
true iff `r` is absent or the empty string and whose `reason` is `r`
unchanged; it throws exactly the subscription-resolution error or the
provider's rejection otherwise. -/
theorem claim_C6_name_validation :
    ∀ (check : String → Option SubscriptionItem → Except AzureError (Option String))
      (st st₁ : AzureState) (subscription appName scope : String)
      (r : Option String) (e : AzureError),
      (updateAppServiceSubscriptionItemCache st subscription = .ok st₁ →
        check appName st₁.usersAppServiceSubscriptionItemCache = .ok r →
        sendAppServiceNameValidationStatusToClient check st subscription appName
            scope =
          .ok (st₁, { scope := some scope, isAvailable := nameIsAvailable r,
                      reason := r }) ∧
        (nameIsAvailable r = true ↔ (r = none ∨ r = some ""))) ∧
      (updateAppServiceSubscriptionItemCache st subscription = .error e →
        sendAppServiceNameValidationStatusToClient check st subscription appName
          scope = .error e) ∧
      (updateAppServiceSubscriptionItemCache st subscription = .ok st₁ →
        check appName st₁.usersAppServiceSubscriptionItemCache = .error e →
        sendAppServiceNameValidationStatusToClient check st subscription appName
          scope = .error e) ∧
      (updateCosmosDBSubscriptionItemCache st subscription = .ok st₁ →
        check appName st₁.usersCosmosDBSubscriptionItemCache = .ok r →
        sendCosmosNameValidationStatusToClient check st subscription appName
            scope =
          .ok (st₁, { scope := some scope, isAvailable := nameIsAvailable r,
                      reason := r }) ∧
        (nameIsAvailable r = true ↔ (r = none ∨ r = some ""))) ∧
      (updateCosmosDBSubscriptionItemCache st subscription = .error e →
        sendCosmosNameValidationStatusToClient check st subscription appName
          scope = .error e) ∧
      (updateCosmosDBSubscriptionItemCache st subscription = .ok st₁ →
        check appName st₁.usersCosmosDBSubscriptionItemCache = .error e →
        sendCosmosNameValidationStatusToClient check st subscription appName
          scope = .error e) ∧
      (updateFunctionSubscriptionItemCache st subscription = .ok st₁ →
        check appName st₁.usersFunctionSubscriptionItemCache = .ok r →
        sendFunctionNameValidationStatusToClient check st subscription appName =
          .ok (st₁, { scope := none, isAvailable := nameIsAvailable r,
                      reason := r }) ∧
        (nameIsAvailable r = true ↔ (r = none ∨ r = some ""))) ∧
      (updateFunctionSubscriptionItemCache st subscription = .error e →
        sendFunctionNameValidationStatusToClient check st subscription appName =
          .error e) ∧
      (updateFunctionSubscriptionItemCache st subscription = .ok st₁ →
        check appName st₁.usersFunctionSubscriptionItemCache = .error e →
        sendFunctionNameValidationStatusToClient check st subscription appName =
          .error e) := by
  intro check st st₁ subscription appName scope r e
  refine ⟨fun h1 h2 => ⟨?_, nameIsAvailable_iff r⟩, fun h1 => ?_,
          fun h1 h2 => ?_,
          fun h1 h2 => ⟨?_, nameIsAvailable_iff r⟩, fun h1 => ?_,
          fun h1 h2 => ?_,
          fun h1 h2 => ⟨?_, nameIsAvailable_iff r⟩, fun h1 => ?_,
          fun h1 h2 => ?_⟩
  · unfold sendAppServiceNameValidationStatusToClient
    rw [h1]; simp only [Bind.bind, Except.bind]; rw [h2]; rfl
  · unfold sendAppServiceNameValidationStatusToClient
    rw [h1]; rfl
  · unfold sendAppServiceNameValidationStatusToClient
    rw [h1]; simp only [Bind.bind, Except.bind]; rw [h2]
  · unfold sendCosmosNameValidationStatusToClient
    rw [h1]; simp only [Bind.bind, Except.bind]; rw [h2]; rfl
  · unfold sendCosmosNameValidationStatusToClient
    rw [h1]; rfl
  · unfold sendCosmosNameValidationStatusToClient
    rw [h1]; simp only [Bind.bind, Except.bind]; rw [h2]
  · unfold sendFunctionNameValidationStatusToClient
    rw [h1]; simp only [Bind.bind, Except.bind]; rw [h2]; rfl
  · unfold sendFunctionNameValidationStatusToClient
    rw [h1]; rfl
  · unfold sendFunctionNameValidationStatusToClient
    rw [h1]; simp only [Bind.bind, Except.bind]; rw [h2]

/-- C6 (witness): the AppService handler at a taken name returns
`isAvailable = false` with the provider's reason, without throwing. -/
theorem claim_C6_witness :
    sendAppServiceNameValidationStatusToClient
        (fun _ _ => .ok (some "taken")) stA "L1" "app" "s1" =
      .ok (⟨[sub1, sub2], none, none, some sub1⟩,
           { scope := some "s1", isAvailable := nameIsAvailable (some "taken"),
             reason := some "taken" }) ∧
    (nameIsAvailable (some "taken") = true ↔
      ((some "taken" : Option String) = none ∨
        (some "taken" : Option String) = some "")) :=
  (claim_C6_name_validation (fun _ _ => .ok (some "taken")) stA
      ⟨[sub1, sub2], none, none, some sub1⟩ "L1" "app" "s1" (some "taken")
      (.GenericError "unused")).1 rfl rfl

/-! ### Lemmas on `dedupFirst` and selection generation -/

theorem mem_dedupFirstAux {α : Type} [DecidableEq α] :
    ∀ (l seen : List α) (y : α),
      y ∈ dedupFirstAux seen l ↔ y ∈ l ∧ y ∉ seen := by
  intro l
  induction l with
  | nil => intro seen y; simp [dedupFirstAux]
  | cons x xs ih =>
    intro seen y
    rw [dedupFirstAux]
    by_cases hx : seen.contains x
    · rw [if_pos hx, ih]
      have hxseen : x ∈ seen := List.elem_iff.mp hx
      constructor
      · exact fun ⟨h1, h2⟩ => ⟨List.mem_cons_of_mem _ h1, h2⟩
      · rintro ⟨h1, h2⟩
        rcases List.mem_cons.mp h1 with h | h
        · exact absurd (h ▸ hxseen) h2
        · exact ⟨h, h2⟩
    · rw [if_neg hx]
      have hxseen : x ∉ seen := fun hmem => hx (List.elem_iff.mpr hmem)
      constructor
      · intro hy
        rcases List.mem_cons.mp hy with h | h
        · exact ⟨h ▸ List.mem_cons_self _ _, h ▸ hxseen⟩
        · have := (ih (x :: seen) y).mp h
          exact ⟨List.mem_cons_of_mem _ this.1,
            fun hs => this.2 (List.mem_cons_of_mem _ hs)⟩
      · rintro ⟨h1, h2⟩
        by_cases hxy : y = x
        · exact hxy ▸ List.mem_cons_self _ _
        · rcases List.mem_cons.mp h1 with h | h
          · exact absurd h hxy
          · exact List.mem_cons_of_mem _ ((ih (x :: seen) y).mpr
              ⟨h, fun hs => (List.mem_cons.mp hs).elim hxy h2⟩)

theorem mem_dedupFirst {α : Type} [DecidableEq α] (l : List α) (x : α) :
    x ∈ dedupFirst l ↔ x ∈ l := by
  rw [dedupFirst, mem_dedupFirstAux]
  simp

theorem nodup_dedupFirstAux {α : Type} [DecidableEq α] :
    ∀ (l seen : List α), (dedupFirstAux seen l).Nodup := by
  intro l
  induction l with
  | nil => intro seen; simp [dedupFirstAux]
  | cons x xs ih =>
    intro seen
    rw [dedupFirstAux]
    by_cases hx : seen.contains x
    · rw [if_pos hx]; exact ih seen
    · rw [if_neg hx]
      refine List.nodup_cons.mpr ⟨fun hmem => ?_, ih (x :: seen)⟩
      exact ((mem_dedupFirstAux xs (x :: seen) x).mp hmem).2
        (List.mem_cons_self _ _)

theorem nodup_dedupFirst {α : Type} [DecidableEq α] (l : List α) :
    (dedupFirst l).Nodup :=
  nodup_dedupFirstAux l []

theorem generateResourceGroupSelection_subscriptionItem
    (MICROSOFT_LEARN_TENANTS : List String)
    (GetResourceGroups : SubscriptionItem → List ResourceGroup)
    (generatedName : String) (s : SubscriptionItem)
    (sel : ResourceGroupSelection)
    (h : generateResourceGroupSelection MICROSOFT_LEARN_TENANTS
      GetResourceGroups generatedName s = some sel) :
    sel.subscriptionItem = s := by
  unfold generateResourceGroupSelection at h
  by_cases hl : IsMicrosoftLearnSubscription MICROSOFT_LEARN_TENANTS s
  · rw [if_pos hl] at h
    cases hr : GetResourceGroups s with
    | nil => rw [hr] at h; simp at h
    | cons rg rest =>
      rw [hr] at h
      have : sel = ⟨s, rg.name, CENTRAL_US⟩ := by simpa using h.symm
      rw [this]
  · rw [if_neg hl] at h
    have : sel = ⟨s, generatedName, CENTRAL_US⟩ := by simpa using h.symm
    rw [this]

theorem mapM_selection_subscriptionItems
    (f : SubscriptionItem → Option ResourceGroupSelection)
    (hf : ∀ s sel, f s = some sel → sel.subscriptionItem = s) :
    ∀ (l : List SubscriptionItem) (sels : List ResourceGroupSelection),
      l.mapM f = some sels →
      sels.map (fun sel => sel.subscriptionItem) = l := by
  intro l
  induction l with
  | nil =>
    intro sels h
    simp only [List.mapM_nil, pure] at h
    have : sels = [] := by simpa using h.symm
    simp [this]
  | cons x xs ih =>
    intro sels h
    rw [List.mapM_cons] at h
    cases hfx : f x with
    | none => rw [hfx] at h; simp at h
    | some sel =>
      rw [hfx] at h
      cases hm : xs.mapM f with
      | none => rw [hm] at h; simp at h
      | some rest =>
        rw [hm] at h
        have hsels : sel :: rest = sels := by simpa using h
        rw [← hsels]
        simp [hf x sel hfx, ih rest hm]

/-- C7: every successful run of `generateDistinctResourceGroupSelections`
returns exactly one `ResourceGroupSelection` per distinct subscription
among the resource kinds selected in the payload: the selections'
subscriptions are the identity-deduplicated collected subscriptions,
without duplicates and covering every collected subscription; in
particular two selected kinds resolving to the same subscription yield
exactly one selection. -/
theorem claim_C7_distinct_selections :
    ∀ (MICROSOFT_LEARN_TENANTS : List String)
      (generateValidResourceGroupName : String → List SubscriptionItem → String)
      (GetResourceGroups : SubscriptionItem → List ResourceGroup)
      (st st' : AzureState) (payload : GenerationPayload)
      (allSubscriptions : List SubscriptionItem)
      (selections : List ResourceGroupSelection),
      collectSubscriptions st payload = (st', .ok allSubscriptions) →
      (generateDistinctResourceGroupSelections MICROSOFT_LEARN_TENANTS
          generateValidResourceGroupName GetResourceGroups st payload).2 =
        .ok selections →
      selections.map (fun sel => sel.subscriptionItem) =
          dedupFirst allSubscriptions ∧
        (dedupFirst allSubscriptions).Nodup ∧
        (∀ x, x ∈ dedupFirst allSubscriptions ↔ x ∈ allSubscriptions) ∧
        (∀ s, allSubscriptions = [s, s] → selections.length = 1) := by
  intro tenants gen getRGs st st' payload allSubscriptions selections hcollect hgen
  unfold generateDistinctResourceGroupSelections at hgen
  rw [hcollect] at hgen
  dsimp only at hgen
  cases hm : (dedupFirst allSubscriptions).mapM
      (generateResourceGroupSelection tenants getRGs
        (gen payload.projectName (dedupFirst allSubscriptions))) with
  | none => rw [hm] at hgen; simp at hgen
  | some sels =>
    rw [hm] at hgen
    have hsel : sels = selections := by simpa using hgen
    subst hsel
    have hmap := mapM_selection_subscriptionItems _
      (fun s sel h => generateResourceGroupSelection_subscriptionItem
        tenants getRGs _ s sel h) _ _ hm
    refine ⟨hmap, nodup_dedupFirst _, fun x => mem_dedupFirst _ x, ?_⟩
    intro s hdup
    have h1 : dedupFirst allSubscriptions = [s] := by
      rw [hdup]
      simp [dedupFirst, dedupFirstAux, List.contains_cons]
    have : sels.map (fun sel => sel.subscriptionItem) = [s] := by
      rw [hmap, h1]
    calc sels.length = (sels.map (fun sel => sel.subscriptionItem)).length :=
          (List.length_map _ _).symm
      _ = 1 := by rw [this]; rfl

/-- C7 (witness): Functions and Cosmos both selected on the subscription
labelled `L1`; one single selection is produced. -/
theorem claim_C7_witness :
    [({ subscriptionItem := sub1, resourceGroupName := "rg-gen",
        location := CENTRAL_US } : ResourceGroupSelection)].map
        (fun sel => sel.subscriptionItem) =
      dedupFirst [sub1, sub1] ∧
    (dedupFirst [sub1, sub1]).Nodup ∧
    (∀ x, x ∈ dedupFirst [sub1, sub1] ↔ x ∈ [sub1, sub1]) ∧
    (∀ s, [sub1, sub1] = [s, s] →
      [({ subscriptionItem := sub1, resourceGroupName := "rg-gen",
          location := CENTRAL_US } : ResourceGroupSelection)].length = 1) :=
  claim_C7_distinct_selections [] (fun _ _ => "rg-gen") (fun _ => [⟨"rg0"⟩])
    stA ⟨[sub1, sub2], some sub1, some sub1, none⟩
    ⟨"proj", true, "L1", true, "L1", false, "LX"⟩
    [sub1, sub1] _ (by rfl) (by rfl)

/-- C8: `generateResourceGroupSelection` uses the name of the
subscription's first existing resource group for a Microsoft Learn
subscription (discarding the generated candidate) and the generated name
otherwise; the location is the fixed Central US default in both cases. -/
theorem claim_C8_resource_group_selection :
    ∀ (MICROSOFT_LEARN_TENANTS : List String)
      (GetResourceGroups : SubscriptionItem → List ResourceGroup)
      (generatedName : String) (subscriptionItem : SubscriptionItem),
      (∀ rg rest,
        IsMicrosoftLearnSubscription MICROSOFT_LEARN_TENANTS
          subscriptionItem = true →
        GetResourceGroups subscriptionItem = rg :: rest →
        generateResourceGroupSelection MICROSOFT_LEARN_TENANTS
            GetResourceGroups generatedName subscriptionItem =
          some { subscriptionItem := subscriptionItem,
                 resourceGroupName := rg.name, location := CENTRAL_US }) ∧
      (IsMicrosoftLearnSubscription MICROSOFT_LEARN_TENANTS
          subscriptionItem = false →
        generateResourceGroupSelection MICROSOFT_LEARN_TENANTS
            GetResourceGroups generatedName subscriptionItem =
          some { subscriptionItem := subscriptionItem,
                 resourceGroupName := generatedName,
                 location := CENTRAL_US }) := by
  intro tenants getRGs generatedName s
  constructor
  · intro rg rest hlearn hrgs
    unfold generateResourceGroupSelection
    rw [if_pos hlearn, hrgs]
  · intro hnot
    unfold generateResourceGroupSelection
    rw [if_neg (by simp [hnot])]

/-- C8 (witness): a Learn-tenant subscription reuses its first existing
resource group; an ordinary subscription gets the generated name. -/
theorem claim_C8_witness :
    (generateResourceGroupSelection ["learnTenant"]
        (fun _ => [⟨"sandboxRG"⟩]) "generated" subLearn =
      some { subscriptionItem := subLearn, resourceGroupName := "sandboxRG",
             location := CENTRAL_US }) ∧
    (generateResourceGroupSelection ["learnTenant"]
        (fun _ => [⟨"sandboxRG"⟩]) "generated" sub1 =
      some { subscriptionItem := sub1, resourceGroupName := "generated",
             location := CENTRAL_US }) :=
  ⟨(claim_C8_resource_group_selection ["learnTenant"]
      (fun _ => [⟨"sandboxRG"⟩]) "generated" subLearn).1 ⟨"sandboxRG"⟩ []
      rfl rfl,
   (claim_C8_resource_group_selection ["learnTenant"]
      (fun _ => [⟨"sandboxRG"⟩]) "generated" sub1).2 rfl⟩

/-- C10: `deployResourceGroup` calls the provider's `createResourceGroup`
and returns its result exactly when the selection's subscription is not a
Microsoft Learn subscription; for a Learn subscription it makes no
provider call and resolves to `undefined`. -/
theorem claim_C10_deploy_resource_group :
    ∀ (α : Type) (MICROSOFT_LEARN_TENANTS : List String)
      (createResourceGroup : ResourceGroupSelection → α)
      (selections : ResourceGroupSelection),
      (IsMicrosoftLearnSubscription MICROSOFT_LEARN_TENANTS
          selections.subscriptionItem = true →
        deployResourceGroup MICROSOFT_LEARN_TENANTS createResourceGroup
          selections = (none, false)) ∧
      (IsMicrosoftLearnSubscription MICROSOFT_LEARN_TENANTS
          selections.subscriptionItem = false →
        deployResourceGroup MICROSOFT_LEARN_TENANTS createResourceGroup
          selections = (some (createResourceGroup selections), true)) ∧
      ((deployResourceGroup MICROSOFT_LEARN_TENANTS createResourceGroup
          selections).2 = true ↔
        IsMicrosoftLearnSubscription MICROSOFT_LEARN_TENANTS
          selections.subscriptionItem = false) := by
  intro α tenants create selections
  refine ⟨fun hlearn => ?_, fun hnot => ?_, ?_⟩
  · unfold deployResourceGroup
    rw [if_neg (by simp [hlearn])]
  · unfold deployResourceGroup
    rw [if_pos (by simp [hnot])]
  · unfold deployResourceGroup
    by_cases hl : IsMicrosoftLearnSubscription tenants
        selections.subscriptionItem
    · rw [if_neg (by simp [hl])]
      simp [hl]
    · rw [if_pos (by simpa using hl)]
      simpa using hl

/-- C10 (witness): no provider call on a Learn subscription, a provider
call with the returned result otherwise. -/
theorem claim_C10_witness :
    (deployResourceGroup ["learnTenant"] (fun _ => "created")
        ⟨subLearn, "rg", CENTRAL_US⟩ = (none, false)) ∧
    (deployResourceGroup ["learnTenant"] (fun _ => "created")
        ⟨sub1, "rg", CENTRAL_US⟩ =
      (some "created", true)) :=
  ⟨(claim_C10_deploy_resource_group String ["learnTenant"] (fun _ => "created")
      ⟨subLearn, "rg", CENTRAL_US⟩).1 rfl,
   (claim_C10_deploy_resource_group String ["learnTenant"] (fun _ => "created")
      ⟨sub1, "rg", CENTRAL_US⟩).2.1 rfl⟩

/-- C1 (code evaluation): the pre-creation gate in all three deploy
functions tests `invalidReason !== undefined && invalidReason === ""` —
so a NON-empty invalid reason (name unavailable) does NOT throw and the
provider's create operation IS invoked, while an empty-string reason
(name available) throws `ValidationError("")` and blocks creation; both
directions contradict the claim. -/
theorem claim_C1_code_evaluation :
    (deployWebApp (fun _ _ => .ok (some "name already taken"))
        (fun _ _ => some "rawid") (fun _ => "asp") (fun _ _ => ⟨"rg"⟩)
        (fun _ => "NODE|12") [] stA "L1" "site" "rg" "proj" "node" "/p" =
      ⟨true, .ok "rawid"⟩) ∧
    (deployWebApp (fun _ _ => .ok (some "")) (fun _ _ => some "rawid")
        (fun _ => "asp") (fun _ _ => ⟨"rg"⟩) (fun _ => "NODE|12") [] stA
        "L1" "site" "rg" "proj" "node" "/p" =
      ⟨false, .error (.ValidationError "")⟩) ∧
    (deployFunctionApp (fun _ _ => .ok (some "name already taken"))
        (fun _ _ => ()) (fun _ => ⟨true, ""⟩) (fun _ _ => ⟨"rg"⟩) stA
        "L1" "fn" "rg" "westus" "node" ["f1"] "/p" = ⟨true, .ok ()⟩) ∧
    (deployCosmosResource (fun _ _ => .ok (some "name already taken"))
        (fun _ _ => ⟨"cs"⟩) (fun _ _ => ⟨"rg"⟩) stA "L1" "sql" "acct" "rg"
        "/p" = ⟨true, .ok ⟨"cs"⟩⟩) :=
  ⟨rfl, rfl, rfl, rfl⟩

end AzureServices
